import Mathlib

/-!
A verification development for the live client migration subsystem of
charybdis-migrate (src/ircd/migrate.c, src/include/migrate.h).

Shallow embedding conventions:

* Servers and clients are identified by natural-number ids, as in the C
  code every participant is a `struct Client`.  A nullable pointer is
  modelled as `Option Nat`.
* The global program state read by the functions is a `World`: the local
  node id (the C global `me`), the tree parent map (the `servptr` field
  of each client), the local-connection predicate (the `MyConnect`
  macro), and the per-client migration record (the `migration` field of
  each client).
* The two unbounded pointer-chasing loops of `migrate_skip_output`
  (step 1, lines 114-125, and step 2, lines 128-132) are modelled with
  explicit fuel; running out of fuel yields `none`, representing a
  non-terminating walk, so `migrate_skip_output` returns `Option Bool`
  and termination questions become `isSome` statements.
-/

/-- The `struct Migration` record of migrate.h: the migrating client,
the destination server, the furthest node on the direct path that has
acknowledged the flip (nullable, as in the C field `furthest_ack_p`),
and the two 32-bit tokens (modelled as `Nat`; no arithmetic is ever
performed on them). -/
structure Migration where
  client_p : Nat
  destination_p : Nat
  furthest_ack_p : Option Nat
  resume_token : Nat
  confirm_token : Nat
deriving DecidableEq, Repr

/-- The program state read by the migration functions: the local node
`me`, the tree parent map `servptr`, the `MyConnect` predicate and the
per-client migration pointer. -/
structure World where
  me : Nat
  servptr : Nat → Nat
  myConnect : Nat → Bool
  migration : Nat → Option Migration

/-- Step 1 of `migrate_skip_output` (migrate.c lines 114-125): starting
from the destination, walk up the `servptr` chain looking for the node
whose parent is `fa` (the furthest ack).  Reaching `me` first is the
logged LOGIC ERROR case, encoded as `some none` (the caller then
returns false); finding the node yields `some (some cur)`; running out
of fuel yields `none`. -/
def findNextAck (w : World) (fa : Nat) : Nat → Nat → Option (Option Nat)
  | 0, _ => none
  | fuel + 1, cur =>
      if cur = w.me then some none
      else if w.servptr cur = fa then some (some cur)
      else findNextAck w fa fuel (w.servptr cur)

/-- Step 2 of `migrate_skip_output` (migrate.c lines 128-132): walk the
`servptr` chain from the source until reaching `me`, reporting whether
the node `na` (the next node expected to ack) was encountered.  The C
loop tests `cursor != me` before testing `cursor == next_ack`,
mirrored here.  Running out of fuel yields `none`. -/
def sourceWalkFindsNextAck (w : World) (na : Nat) : Nat → Nat → Option Bool
  | 0, _ => none
  | fuel + 1, cur =>
      if cur = w.me then some false
      else if cur = na then some true
      else sourceWalkFindsNextAck w na fuel (w.servptr cur)

/-- The embedding of `migrate_skip_output` (migrate.c lines 38-138).
Returns `some b` where `b` is the C return value, or `none` when a walk
ran out of fuel (the C loop would not have terminated within `fuel`
steps). -/
def migrate_skip_output (w : World) (fuel : Nat)
    (target_p source_p : Option Nat) : Option Bool :=
  match target_p, source_p with
  | some target, some source =>
    match w.migration target with
    | none => some false
    | some mig =>
      if mig.destination_p = w.me then
        some (! w.myConnect target)
      else
        match mig.furthest_ack_p with
        | none => some false
        | some fa =>
          if fa = mig.destination_p then
            some true
          else
            match findNextAck w fa fuel mig.destination_p with
            | none => none
            | some none => some false
            | some (some na) =>
              match sourceWalkFindsNextAck w na fuel source with
              | none => none
              | some true => some false
              | some false => some true
  | _, _ => some false

/-- The embedding of `migration_resume` (migrate.c lines 27-36).  The
function returns the state: the guard (null `client_p`, null
`migrant_p`, or missing migration record) returns without any
modification, and the non-error body is unimplemented in the source
(a TODO comment), so it also performs no state change. -/
def migration_resume (w : World) (client_p migrant_p : Option Nat) : World :=
  match client_p, migrant_p with
  | some c, some _ =>
    match w.migration c with
    | none => w
    | some _ => w
  | _, _ => w

/-- The embedding of `find_migration` (migrate.c lines 21-25): the
source is a stub that always returns NULL. -/
def find_migration (_resume_token : Nat) : Option Migration := none

/-- The list of nodes visited by an upward `servptr` walk from `cur`,
up to but excluding `me` (the step-2 loop of `migrate_skip_output`
exits on reaching `me` without inspecting it), truncated by fuel. -/
def walkToMe (w : World) : Nat → Nat → List Nat
  | 0, _ => []
  | fuel + 1, cur =>
      if cur = w.me then [] else cur :: walkToMe w fuel (w.servptr cur)

/-- State-threading variant of step 1, used to express that the loop
only reads the state. -/
def findNextAck_st (w : World) (fa : Nat) :
    Nat → Nat → Option (Option Nat) × World
  | 0, _ => (none, w)
  | fuel + 1, cur =>
      if cur = w.me then (some none, w)
      else if w.servptr cur = fa then (some (some cur), w)
      else findNextAck_st w fa fuel (w.servptr cur)

/-- State-threading variant of step 2, used to express that the loop
only reads the state. -/
def sourceWalkFindsNextAck_st (w : World) (na : Nat) :
    Nat → Nat → Option Bool × World
  | 0, _ => (none, w)
  | fuel + 1, cur =>
      if cur = w.me then (some false, w)
      else if cur = na then (some true, w)
      else sourceWalkFindsNextAck_st w na fuel (w.servptr cur)

/-- State-threading variant of `migrate_skip_output`, mirroring the C
function statement by statement while passing the program state through
every step; used to express that the function is read-only. -/
def migrate_skip_output_st (w : World) (fuel : Nat)
    (target_p source_p : Option Nat) : Option Bool × World :=
  match target_p, source_p with
  | some target, some source =>
    match w.migration target with
    | none => (some false, w)
    | some mig =>
      if mig.destination_p = w.me then
        (some (! w.myConnect target), w)
      else
        match mig.furthest_ack_p with
        | none => (some false, w)
        | some fa =>
          if fa = mig.destination_p then
            (some true, w)
          else
            match findNextAck_st w fa fuel mig.destination_p with
            | (none, w1) => (none, w1)
            | (some none, w1) => (some false, w1)
            | (some (some na), w1) =>
              match sourceWalkFindsNextAck_st w1 na fuel source with
              | (none, w2) => (none, w2)
              | (some true, w2) => (some false, w2)
              | (some false, w2) => (some true, w2)
  | _, _ => (some false, w)

/-- Modelled from the spec: the destination side of the
exactly-one-producer property.  The state machine and the destination
buffering logic are declared in migrate.h but not implemented under
src/, so the destination evaluation is taken from spec sections 4.2,
4.3 and 4.4: the destination produces (buffers) output for a message M
precisely when it received the flip before M; by per-link FIFO ordering
along the direct path this holds precisely when the node where M first
joined the direct path (index `j` from the local node) had already
acked the flip when the origin processed M, i.e. when `j ≤ f`, where
`f` is the index of `furthest_ack` on the direct path. -/
def destProduces (j f : Nat) : Bool := decide (j ≤ f)

/-- The suffix of the direct path crossed by an upward walk that joins
the direct path at index `j`: the nodes `p j, p (j-1), ..., p 1`
(index 0 is the local node, which the walk excludes). -/
def pathSegToMe (p : Nat → Nat) (j : Nat) : List Nat :=
  (List.range j).reverse.map (fun i => p (i + 1))

/-- Concrete world for the spec scenarios: nodes 0 = ME, 1 = A, 2 = B,
3 = DEST on the direct path; node 4 hangs off B; node 5 hangs off ME.
Client 9 is migrating to DEST with furthest ack A; client 8 has an
outbound migration whose flip has not been sent; client 7 has an
outbound migration fully acked by the destination; client 6 has an
inbound migration; client 5 has an outbound migration whose furthest
ack (42) violates the path invariant. -/
def scenarioW : World where
  me := 0
  servptr := fun n =>
    match n with
    | 1 => 0
    | 2 => 1
    | 3 => 2
    | 4 => 2
    | 5 => 0
    | _ => 0
  myConnect := fun _ => false
  migration := fun n =>
    match n with
    | 9 => some ⟨9, 3, some 1, 11, 12⟩
    | 8 => some ⟨8, 3, none, 21, 22⟩
    | 7 => some ⟨7, 3, some 3, 31, 32⟩
    | 6 => some ⟨6, 0, none, 41, 42⟩
    | 5 => some ⟨5, 3, some 42, 51, 52⟩
    | _ => none

/-- Concrete world for the C3 analysis: the chain ME(0)-A(1)-B(2)-DEST(3),
with client 9 migrating to DEST and `furthest_ack_p` equal to the local
node itself (the initial value documented in migrate.h). -/
def chain4W : World where
  me := 0
  servptr := fun n =>
    match n with
    | 1 => 0
    | 2 => 1
    | 3 => 2
    | _ => 0
  myConnect := fun _ => false
  migration := fun n =>
    match n with
    | 9 => some ⟨9, 3, some 0, 11, 12⟩
    | _ => none

/-- Degenerate world used for termination witnesses: every node is a
direct child of the local node and no client is migrating. -/
def starW : World where
  me := 0
  servptr := fun _ => 0
  myConnect := fun _ => false
  migration := fun _ => none

example : migrate_skip_output scenarioW 10 (some 9) (some 4) = some false := by decide
example : migrate_skip_output scenarioW 10 (some 9) (some 5) = some true := by decide
example : migrate_skip_output scenarioW 10 (some 8) (some 5) = some false := by decide
example : migrate_skip_output scenarioW 10 (some 7) (some 4) = some true := by decide
example : migrate_skip_output scenarioW 10 (some 6) (some 4) = some true := by decide
example : migrate_skip_output scenarioW 10 (some 5) (some 4) = some false := by decide
example : migrate_skip_output chain4W 10 (some 9) (some 0) = some true := by decide
example : migrate_skip_output chain4W 10 (some 9) (some 1) = some false := by decide

/-- Helper: the step-1 loop terminates (returns a value within the
given fuel) whenever the servptr chain from the start node reaches the
local node in fewer steps than the fuel. -/
theorem findNextAck_isSome (w : World) (fa : Nat) :
    ∀ k fuel cur, (w.servptr)^[k] cur = w.me → k < fuel →
      (findNextAck w fa fuel cur).isSome = true := by
  intro k
  induction k with
  | zero =>
    intro fuel cur h hk
    cases fuel with
    | zero => omega
    | succ f =>
      simp only [Function.iterate_zero, id_eq] at h
      simp [findNextAck, h]
  | succ k ih =>
    intro fuel cur h hk
    cases fuel with
    | zero => omega
    | succ f =>
      rw [Function.iterate_succ_apply] at h
      by_cases h1 : cur = w.me
      · simp [findNextAck, h1]
      · by_cases h2 : w.servptr cur = fa
        · simp [findNextAck, h1, h2]
        · simpa [findNextAck, h1, h2] using ih f (w.servptr cur) h (by omega)

/-- Helper: the step-2 loop terminates whenever the servptr chain from
the start node reaches the local node in fewer steps than the fuel. -/
theorem sourceWalk_isSome (w : World) (na : Nat) :
    ∀ k fuel cur, (w.servptr)^[k] cur = w.me → k < fuel →
      (sourceWalkFindsNextAck w na fuel cur).isSome = true := by
  intro k
  induction k with
  | zero =>
    intro fuel cur h hk
    cases fuel with
    | zero => omega
    | succ f =>
      simp only [Function.iterate_zero, id_eq] at h
      simp [sourceWalkFindsNextAck, h]
  | succ k ih =>
    intro fuel cur h hk
    cases fuel with
    | zero => omega
    | succ f =>
      rw [Function.iterate_succ_apply] at h
      by_cases h1 : cur = w.me
      · simp [sourceWalkFindsNextAck, h1]
      · by_cases h2 : cur = na
        · simp only [sourceWalkFindsNextAck, if_neg h1, if_pos h2]
          rfl
        · simpa [sourceWalkFindsNextAck, h1, h2] using
            ih f (w.servptr cur) h (by omega)

/-- Helper: when the step-2 loop returns a verdict, that verdict is
exactly membership of the sought node in the upward walk from the
source (the walk excludes the local node, as the loop does). -/
theorem sourceWalk_mem_walkToMe (w : World) (na : Nat) :
    ∀ fuel cur b, sourceWalkFindsNextAck w na fuel cur = some b →
      (b = true ↔ na ∈ walkToMe w fuel cur) := by
  intro fuel
  induction fuel with
  | zero =>
    intro cur b h
    simp [sourceWalkFindsNextAck] at h
  | succ f ih =>
    intro cur b h
    simp only [sourceWalkFindsNextAck] at h
    by_cases h1 : cur = w.me
    · rw [if_pos h1] at h
      obtain rfl : (false : Bool) = b := by simpa using h
      simp [walkToMe, h1]
    · rw [if_neg h1] at h
      by_cases h2 : cur = na
      · rw [if_pos h2] at h
        obtain rfl : (true : Bool) = b := by simpa using h
        simp only [walkToMe, if_neg h1]
        simp [h2]
      · rw [if_neg h2] at h
        have hrec := ih (w.servptr cur) b h
        simp only [walkToMe, if_neg h1, List.mem_cons]
        constructor
        · intro hb
          exact Or.inr (hrec.mp hb)
        · rintro (hc | hm)
          · exact absurd hc.symm h2
          · exact hrec.mpr hm

/-- Helper: on a direct path `p 0, ..., p m` (local node at index 0),
with the furthest ack at index `f < m`, the step-1 walk started at any
path index `i > f` finds exactly the node at index `f + 1` (the next
node expected to ack), given enough fuel. -/
theorem findNextAck_on_path (w : World) (p : Nat → Nat) (m f : Nat)
    (hme : w.me = p 0)
    (hinj : ∀ i, i ≤ m → ∀ i', i' ≤ m → p i = p i' → i = i')
    (hstep : ∀ i, i < m → w.servptr (p (i + 1)) = p i)
    (hf : f < m) :
    ∀ fuel i, f < i → i ≤ m → i - f ≤ fuel →
      findNextAck w (p f) fuel (p i) = some (some (p (f + 1))) := by
  intro fuel
  induction fuel with
  | zero =>
    intro i hfi _ hif
    omega
  | succ fl ih =>
    intro i hfi him hif
    have hi1 : 1 ≤ i := by omega
    have hne : p i ≠ w.me := by
      rw [hme]
      intro he
      have := hinj i him 0 (Nat.zero_le m) he
      omega
    have hsp : w.servptr (p i) = p (i - 1) := by
      have := hstep (i - 1) (by omega)
      rwa [Nat.sub_add_cancel hi1] at this
    simp only [findNextAck, if_neg hne, hsp]
    by_cases hb : i - 1 = f
    · rw [if_pos (by rw [hb])]
      have hieq : i = f + 1 := by omega
      rw [hieq]
    · rw [if_neg ?hcond]
      case hcond =>
        intro he
        exact hb (hinj (i - 1) (by omega) f (by omega) he)
      exact ih (i - 1) (by omega) (by omega) (by omega)

/-- Helper: a path node of positive index belongs to the direct-path
suffix crossed by a walk joining at index `j` exactly when its index is
at most `j`. -/
theorem mem_pathSegToMe_iff (p : Nat → Nat) (m : Nat)
    (hinj : ∀ i, i ≤ m → ∀ i', i' ≤ m → p i = p i' → i = i')
    (j x : Nat) (hj : j ≤ m) (hx : x ≤ m) (hx1 : 1 ≤ x) :
    p x ∈ pathSegToMe p j ↔ x ≤ j := by
  simp only [pathSegToMe, List.mem_map, List.mem_reverse, List.mem_range]
  constructor
  · rintro ⟨i, hi, he⟩
    have := hinj x hx (i + 1) (by omega) he.symm
    omega
  · intro hxj
    refine ⟨x - 1, by omega, ?_⟩
    congr 1
    omega

/-- Helper: the state-threading step-1 loop returns the unchanged state
paired with the pure result. -/
theorem findNextAck_st_eq (w : World) (fa : Nat) :
    ∀ fuel cur, findNextAck_st w fa fuel cur = (findNextAck w fa fuel cur, w) := by
  intro fuel
  induction fuel with
  | zero => intro cur; rfl
  | succ f ih =>
    intro cur
    simp only [findNextAck_st, findNextAck]
    by_cases h1 : cur = w.me
    · simp [h1]
    · by_cases h2 : w.servptr cur = fa
      · simp [h1, h2]
      · simp [h1, h2, ih]

/-- Helper: the state-threading step-2 loop returns the unchanged state
paired with the pure result. -/
theorem sourceWalk_st_eq (w : World) (na : Nat) :
    ∀ fuel cur, sourceWalkFindsNextAck_st w na fuel cur
      = (sourceWalkFindsNextAck w na fuel cur, w) := by
  intro fuel
  induction fuel with
  | zero => intro cur; rfl
  | succ f ih =>
    intro cur
    simp only [sourceWalkFindsNextAck_st, sourceWalkFindsNextAck]
    by_cases h1 : cur = w.me
    · simp [h1]
    · by_cases h2 : cur = na
      · rw [if_neg h1, if_neg h1, if_pos h2, if_pos h2]
      · simp [h1, h2, ih]

/-- C6: for every target client with no attached migration record,
`migrate_skip_output` returns false (produce) regardless of the source
pointer (migrate.c lines 53-56). -/
theorem skip_output_no_migration (w : World) (fuel : Nat) (target : Nat)
    (source_p : Option Nat)
    (hmig : w.migration target = none) :
    migrate_skip_output w fuel (some target) source_p = some false := by
  cases source_p with
  | none => rfl
  | some s => simp [migrate_skip_output, hmig]

/-- Witness for C6 at a concrete world: client 4 of the scenario world
has no migration record. -/
theorem skip_output_no_migration_witness :
    migrate_skip_output scenarioW 10 (some 4) (some 2) = some false :=
  skip_output_no_migration scenarioW 10 4 (some 2) (by decide)

/-- C5: for an inbound migration (the migration destination is the
local node), `migrate_skip_output` returns true exactly when the client
is not locally connected, regardless of the source node and of the
furthest ack (migrate.c lines 60-67). -/
theorem skip_output_inbound_myconnect (w : World) (fuel : Nat)
    (target source : Nat) (mig : Migration)
    (hmig : w.migration target = some mig)
    (hdme : mig.destination_p = w.me) :
    migrate_skip_output w fuel (some target) (some source)
      = some (! w.myConnect target) := by
  simp [migrate_skip_output, hmig, hdme]

/-- Witness for C5 at a concrete world: client 6 of the scenario world
is migrating to the local node and is not locally connected, so the
result is true. -/
theorem skip_output_inbound_myconnect_witness :
    migrate_skip_output scenarioW 10 (some 6) (some 4)
      = some (! scenarioW.myConnect 6) :=
  skip_output_inbound_myconnect scenarioW 10 6 4 ⟨6, 0, none, 41, 42⟩
    (by decide) (by decide)

/-- C4: for an outbound migration whose flip has been acked by the
destination, `migrate_skip_output` returns true (suppress) for every
source node (migrate.c lines 75-79). -/
theorem skip_output_dest_acked_true (w : World) (fuel : Nat)
    (target source : Nat) (mig : Migration)
    (hmig : w.migration target = some mig)
    (hdme : mig.destination_p ≠ w.me)
    (hfa : mig.furthest_ack_p = some mig.destination_p) :
    migrate_skip_output w fuel (some target) (some source) = some true := by
  simp [migrate_skip_output, hmig, hdme, hfa]

/-- Witness for C4 at a concrete world: client 7 of the scenario world
has furthest ack equal to its destination. -/
theorem skip_output_dest_acked_true_witness :
    migrate_skip_output scenarioW 10 (some 7) (some 4) = some true :=
  skip_output_dest_acked_true scenarioW 10 7 4 ⟨7, 3, some 3, 31, 32⟩
    (by decide) (by decide) (by decide)

/-- C7: in the general case of an outbound migration, if the step-1
walk from the destination reaches the local node without finding a node
whose parent is the furthest ack (the logged invariant-violation case),
`migrate_skip_output` returns false, the safe default of producing
output, rather than diverging or suppressing (migrate.c lines 114-125). -/
theorem skip_output_invariant_violation_default (w : World) (fuel : Nat)
    (target source : Nat) (mig : Migration) (fa : Nat)
    (hmig : w.migration target = some mig)
    (hdme : mig.destination_p ≠ w.me)
    (hfa : mig.furthest_ack_p = some fa)
    (hfad : fa ≠ mig.destination_p)
    (hwalk : findNextAck w fa fuel mig.destination_p = some none) :
    migrate_skip_output w fuel (some target) (some source) = some false := by
  simp [migrate_skip_output, hmig, hdme, hfa, hfad, hwalk]

/-- Witness for C7 at a concrete world: client 5 of the scenario world
has furthest ack 42, a node that is not the local node and not on the
path between the local node and the destination, so the step-1 walk
reaches the local node and the function defaults to false. -/
theorem skip_output_invariant_violation_default_witness :
    migrate_skip_output scenarioW 10 (some 5) (some 4) = some false :=
  skip_output_invariant_violation_default scenarioW 10 5 4
    ⟨5, 3, some 42, 51, 52⟩ 42 (by decide) (by decide) (by decide)
    (by decide) (by decide)

/-- C9: `migration_resume` called with a null client, a null migrant,
or a client with no attached migration record returns without modifying
any state (migrate.c lines 27-36; the non-error body is a TODO in the
source and also performs no state change). -/
theorem migration_resume_error_noop (w : World)
    (client_p migrant_p : Option Nat)
    (h : client_p = none ∨ migrant_p = none ∨
      ∃ c, client_p = some c ∧ w.migration c = none) :
    migration_resume w client_p migrant_p = w := by
  cases client_p with
  | none => rfl
  | some c =>
    cases migrant_p with
    | none => rfl
    | some mg =>
      cases hm : w.migration c with
      | none => simp [migration_resume, hm]
      | some m => simp [migration_resume, hm]

/-- Witness for C9: a null client pointer leaves the scenario world
unchanged. -/
theorem migration_resume_error_noop_witness :
    migration_resume scenarioW none (some 1) = scenarioW :=
  migration_resume_error_noop scenarioW none (some 1) (Or.inl rfl)

/-- C3 counterexample: on the chain ME(0)-A(1)-B(2)-DEST(3) with an
outbound migration whose `furthest_ack_p` literally equals the local
node (the initial value documented in migrate.h) and source equal to
the local node, `migrate_skip_output` returns true, not false as the
claim states for every source.  The code reserves a null
`furthest_ack_p` (not the local node) for the state in which nothing
has been sent or acked; once `furthest_ack_p` is the local node the
general-case walk applies and suppresses messages originating at or
behind the local node, exactly as the side note of migrate.h requires. -/
theorem skip_output_furthest_ack_me_counterexample :
    chain4W.migration 9 = some ⟨9, 3, some chain4W.me, 11, 12⟩ ∧
    (3 : Nat) ≠ chain4W.me ∧
    migrate_skip_output chain4W 10 (some 9) (some chain4W.me) ≠ some false ∧
    migrate_skip_output chain4W 10 (some 9) (some chain4W.me) = some true := by
  decide

/-- C3 amended: for an outbound migration in the state the code uses
for "no hop has acked yet" - a null `furthest_ack_p`, meaning the flip
has not even been sent out (migrate.c lines 69-73) - the function
returns false (produce) for every source node.  (When `furthest_ack_p`
is instead set to the local node itself, the general case applies and
the result depends on the source; see the counterexample.) -/
theorem skip_output_flip_unsent_false (w : World) (fuel : Nat)
    (target source : Nat) (mig : Migration)
    (hmig : w.migration target = some mig)
    (hdme : mig.destination_p ≠ w.me)
    (hfa : mig.furthest_ack_p = none) :
    migrate_skip_output w fuel (some target) (some source) = some false := by
  simp [migrate_skip_output, hmig, hdme, hfa]

/-- Witness for the amended C3: client 8 of the scenario world has an
outbound migration whose flip is not yet sent; a message sourced at the
local node is produced. -/
theorem skip_output_flip_unsent_false_witness :
    migrate_skip_output scenarioW 10 (some 8) (some 0) = some false :=
  skip_output_flip_unsent_false scenarioW 10 8 0 ⟨8, 3, none, 21, 22⟩
    (by decide) (by decide) (by decide)

/-- C8: `migrate_skip_output` is pure and read-only: the
state-threading rendition of the C function returns the program state
unchanged, paired with a value that is a function of the state and the
arguments alone (so two calls with identical arguments and identical
state return the same boolean). -/
theorem migrate_skip_output_pure (w : World) (fuel : Nat)
    (target_p source_p : Option Nat) :
    migrate_skip_output_st w fuel target_p source_p
      = (migrate_skip_output w fuel target_p source_p, w) := by
  cases target_p with
  | none =>
    cases source_p with
    | none => rfl
    | some s => rfl
  | some target =>
    cases source_p with
    | none => rfl
    | some source =>
      cases hm : w.migration target with
      | none => simp [migrate_skip_output_st, migrate_skip_output, hm]
      | some mig =>
        by_cases hd : mig.destination_p = w.me
        · simp [migrate_skip_output_st, migrate_skip_output, hm, hd]
        · cases hfa : mig.furthest_ack_p with
          | none =>
            simp [migrate_skip_output_st, migrate_skip_output, hm, hd, hfa]
          | some fa =>
            by_cases hfd : fa = mig.destination_p
            · simp [migrate_skip_output_st, migrate_skip_output,
                hm, hd, hfa, hfd]
            · simp only [migrate_skip_output_st, migrate_skip_output,
                hm, hd, hfa, if_neg hd, if_neg hfd,
                findNextAck_st_eq, sourceWalk_st_eq]
              cases hr : findNextAck w fa fuel mig.destination_p with
              | none => simp
              | some r =>
                cases r with
                | none => simp
                | some na =>
                  simp only [sourceWalk_st_eq]
                  cases hb : sourceWalkFindsNextAck w na fuel source with
                  | none => simp
                  | some b => cases b <;> simp

/-- C10: under the precondition that the parent pointer of the local
node is itself and that every servptr chain reaches the local node in
fewer steps than the available fuel, `migrate_skip_output` terminates
on every input: both walks return within the fuel bound and the
function yields a value. -/
theorem skip_output_terminates (w : World) (fuel : Nat)
    (target_p source_p : Option Nat)
    (hfix : w.servptr w.me = w.me)
    (hreach : ∀ n, ∃ k, k < fuel ∧ (w.servptr)^[k] n = w.me) :
    (migrate_skip_output w fuel target_p source_p).isSome = true := by
  cases target_p with
  | none =>
    cases source_p with
    | none => rfl
    | some s => rfl
  | some target =>
    cases source_p with
    | none => rfl
    | some source =>
      cases hm : w.migration target with
      | none => simp [migrate_skip_output, hm]
      | some mig =>
        by_cases hd : mig.destination_p = w.me
        · simp [migrate_skip_output, hm, hd]
        · cases hfa : mig.furthest_ack_p with
          | none => simp [migrate_skip_output, hm, hd, hfa]
          | some fa =>
            by_cases hfd : fa = mig.destination_p
            · simp [migrate_skip_output, hm, hd, hfa, hfd]
            · obtain ⟨k1, hk1, hm1⟩ := hreach mig.destination_p
              have h1 := findNextAck_isSome w fa k1 fuel
                mig.destination_p hm1 hk1
              obtain ⟨r, hr⟩ := Option.isSome_iff_exists.mp h1
              cases r with
              | none => simp [migrate_skip_output, hm, hd, hfa, hfd, hr]
              | some na =>
                obtain ⟨k2, hk2, hm2⟩ := hreach source
                have h2 := sourceWalk_isSome w na k2 fuel source hm2 hk2
                obtain ⟨b, hb⟩ := Option.isSome_iff_exists.mp h2
                cases b <;>
                  simp [migrate_skip_output, hm, hd, hfa, hfd, hr, hb]

/-- Witness for C10: in the star world every chain reaches the local
node in one step, and the function yields a value with fuel 2. -/
theorem skip_output_terminates_witness :
    (migrate_skip_output starW 2 (some 1) (some 1)).isSome = true :=
  skip_output_terminates starW 2 (some 1) (some 1) rfl
    (fun _ => ⟨1, by omega, rfl⟩)

/-- C1: for an outbound migration in the general case - the furthest
ack is neither the local node nor the destination - where the step-1
walk resolves `na` (the node on the direct path whose parent is the
furthest ack) and the servptr chain from the source reaches the local
node, `migrate_skip_output` returns false exactly when `na` appears on
the upward walk from the source to the local node, and true otherwise
(migrate.c lines 113-137). -/
theorem skip_output_general_walk (w : World) (fuel : Nat)
    (target source : Nat) (mig : Migration) (fa na : Nat)
    (hmig : w.migration target = some mig)
    (hdme : mig.destination_p ≠ w.me)
    (hfa : mig.furthest_ack_p = some fa)
    (hfame : fa ≠ w.me)
    (hfad : fa ≠ mig.destination_p)
    (hna : findNextAck w fa fuel mig.destination_p = some (some na))
    (hreach : ∃ k, k < fuel ∧ (w.servptr)^[k] source = w.me) :
    migrate_skip_output w fuel (some target) (some source)
      = some (! decide (na ∈ walkToMe w fuel source)) := by
  obtain ⟨k, hk, hkm⟩ := hreach
  have hs := sourceWalk_isSome w na k fuel source hkm hk
  obtain ⟨b, hb⟩ := Option.isSome_iff_exists.mp hs
  have hmem := sourceWalk_mem_walkToMe w na fuel source b hb
  cases b with
  | false =>
    have hnot : na ∉ walkToMe w fuel source := by
      intro hin
      exact absurd (hmem.mpr hin) (by simp)
    simp [migrate_skip_output, hmig, hdme, hfa, hfad, hna, hb, hnot]
  | true =>
    have hin : na ∈ walkToMe w fuel source := hmem.mp rfl
    simp [migrate_skip_output, hmig, hdme, hfa, hfad, hna, hb, hin]

/-- Witness for C1 on the spec scenario tree ME(0)-A(1)-B(2)-DEST(3)
with node 4 on a branch off B: with furthest ack A, the step-1 walk
resolves node B, which lies on the walk from node 4 to the local node,
so the result is false (produce). -/
theorem skip_output_general_walk_witness :
    migrate_skip_output scenarioW 10 (some 9) (some 4)
      = some (! decide ((2 : Nat) ∈ walkToMe scenarioW 10 4)) :=
  skip_output_general_walk scenarioW 10 9 4 ⟨9, 3, some 1, 11, 12⟩ 1 2
    (by decide) (by decide) (by decide) (by decide) (by decide) (by decide)
    ⟨3, by omega, by decide⟩

/-- C2: exactly-one-producer.  Fix a tree containing a direct path
`p 0, ..., p m` from the local node (`p 0`) to the destination (`p m`),
an outbound migration whose furthest ack sits at path index `f`, and a
message origin whose upward walk to the local node consists of some
off-path nodes `L` followed by the direct-path suffix below index `j`
(the node `p j` is where the message first joins the direct path).
Then exactly one of the two evaluations indicates produce: the origin
side (this file's embedding of `migrate_skip_output`) and the
destination side (`destProduces`, modelled from the spec: the
destination produces exactly when per-link FIFO ordering makes it
receive the flip before the message, i.e. when `j ≤ f`) - never both
and never neither. -/
theorem skip_output_exactly_one_producer
    (w : World) (p : Nat → Nat) (m f j fuel : Nat)
    (target source : Nat) (mig : Migration) (L : List Nat)
    (hme : w.me = p 0)
    (hinj : ∀ i, i ≤ m → ∀ i', i' ≤ m → p i = p i' → i = i')
    (hstep : ∀ i, i < m → w.servptr (p (i + 1)) = p i)
    (hm : 1 ≤ m) (hf : f ≤ m) (hj : j ≤ m) (hfuel : m ≤ fuel)
    (hmig : w.migration target = some mig)
    (hdest : mig.destination_p = p m)
    (hfa : mig.furthest_ack_p = some (p f))
    (hwalk : walkToMe w fuel source = L ++ pathSegToMe p j)
    (hLoff : ∀ x ∈ L, ∀ i, i ≤ m → x ≠ p i)
    (hreach : ∃ k, k < fuel ∧ (w.servptr)^[k] source = w.me) :
    Xor' (migrate_skip_output w fuel (some target) (some source) = some false)
         (destProduces j f = true) := by
  have hdme : mig.destination_p ≠ w.me := by
    rw [hdest, hme]
    intro he
    have := hinj m (le_refl m) 0 (Nat.zero_le m) he
    omega
  have hchar : migrate_skip_output w fuel (some target) (some source)
      = some (decide (j ≤ f)) := by
    by_cases hfm : f = m
    · subst hfm
      simp only [migrate_skip_output, hmig, hfa, if_neg hdme]
      rw [hdest, if_pos rfl]
      simp [hj]
    · have hflt : f < m := lt_of_le_of_ne hf hfm
      have hfad : p f ≠ mig.destination_p := by
        rw [hdest]
        intro he
        have := hinj f hf m (le_refl m) he
        omega
      have hfind : findNextAck w (p f) fuel mig.destination_p
          = some (some (p (f + 1))) := by
        rw [hdest]
        exact findNextAck_on_path w p m f hme hinj hstep hflt fuel m hflt
          (le_refl m) (by omega)
      obtain ⟨k, hk, hkm⟩ := hreach
      have hs := sourceWalk_isSome w (p (f + 1)) k fuel source hkm hk
      obtain ⟨b, hb⟩ := Option.isSome_iff_exists.mp hs
      have hmem := sourceWalk_mem_walkToMe w (p (f + 1)) fuel source b hb
      rw [hwalk] at hmem
      have hmem2 : p (f + 1) ∈ L ++ pathSegToMe p j ↔ f + 1 ≤ j := by
        rw [List.mem_append]
        constructor
        · rintro (hL | hseg)
          · exact absurd rfl (hLoff _ hL (f + 1) (by omega))
          · exact (mem_pathSegToMe_iff p m hinj j (f + 1) hj (by omega)
              (by omega)).mp hseg
        · intro hle
          exact Or.inr ((mem_pathSegToMe_iff p m hinj j (f + 1) hj (by omega)
            (by omega)).mpr hle)
      cases b with
      | true =>
        have hlt : f + 1 ≤ j := hmem2.mp (hmem.mp rfl)
        have hdec : decide (j ≤ f) = false := by
          simp only [decide_eq_false_iff_not]
          omega
        simp [migrate_skip_output, hmig, hfa, hdme, hfad, hfind, hb, hdec]
      | false =>
        have hnot : ¬ (f + 1 ≤ j) := fun hle =>
          absurd (hmem.mpr (hmem2.mpr hle)) (by simp)
        have hdec : decide (j ≤ f) = true := by
          simp only [decide_eq_true_eq]
          omega
        simp [migrate_skip_output, hmig, hfa, hdme, hfad, hfind, hb, hdec]
  rw [hchar]
  by_cases hjf : j ≤ f
  · have h1 : decide (j ≤ f) = true := by simp [hjf]
    rw [h1]
    exact Or.inr ⟨by simp [destProduces, hjf], by simp⟩
  · have h1 : decide (j ≤ f) = false := by simp [hjf]
    rw [h1]
    exact Or.inl ⟨rfl, by simp [destProduces, hjf]⟩

/-- Witness for C2 on the scenario tree ME(0)-A(1)-B(2)-DEST(3) with
the origin at node 4 (a branch off B, join index 2) and the furthest
ack at A (index 1): the origin side produces and the destination side
does not. -/
theorem skip_output_exactly_one_producer_witness :
    Xor' (migrate_skip_output scenarioW 10 (some 9) (some 4) = some false)
         (destProduces 2 1 = true) :=
  skip_output_exactly_one_producer scenarioW (fun i => i) 3 1 2 10 9 4
    ⟨9, 3, some 1, 11, 12⟩ [4]
    (by decide) (by decide) (by decide) (by decide) (by decide) (by decide)
    (by decide) (by decide) (by decide) (by decide) (by decide) (by decide)
    ⟨3, by omega, by decide⟩
